import Mathlib

/-!
Verification development for the OsuToLibrary repository.

The Python source (OsuToLibrary.py) is shallowly embedded below.
Strings are modelled as `List Char` (the `data` of Lean string literals),
dictionaries of fixed shape as structures, Python `None`/falsy-string
values either as `Option` or as the empty list where the source tests
truthiness of a string, and the remote Spotify service as an explicit
environment of response functions.  Exceptions raised by the remote
service are modelled as explicit error results, matching the
`try/except` structure of the source.
-/

/-- The section header literal of the regex in `OsuFileParser.parse_osu_file`. -/
def metadataHeader : List Char := String.data "[Metadata]"

/-- The general-section header literal of the regex in `OsuFileParser.parse_osu_file`. -/
def generalHeader : List Char := String.data "[General]"

/-- Field label literals used by `OsuFileParser.parse_osu_file`. -/
def titleLabel : List Char := String.data "Title:"

def artistLabel : List Char := String.data "Artist:"

def versionLabel : List Char := String.data "Version:"

def creatorLabel : List Char := String.data "Creator:"

def audioLabel : List Char := String.data "AudioFilename:"

/-- Index of the first occurrence of `pat` as a contiguous substring of the
text, as found by `re.search`; `none` when `pat` does not occur. -/
def findSub (pat : List Char) : List Char → Option Nat
  | [] => if pat.isPrefixOf ([] : List Char) then some 0 else none
  | c :: rest =>
    if pat.isPrefixOf (c :: rest) then some 0
    else Option.map (· + 1) (findSub pat rest)

/-- Position `j` of `s` satisfies the lookahead `(?=\n\[|\n$)` of the
section regexes in `parse_osu_file` (with `re.DOTALL`, `$` matches at the
end of the text or just before a final newline). -/
def termAt (s : List Char) (j : Nat) : Bool :=
  s[j]? == some '\n' &&
    (s[j+1]? == some '[' || j + 1 == s.length ||
      (j + 2 == s.length && s[j+1]? == some '\n'))

/-- Smallest lookahead position of `s` at or after `start` (lazy `(.*?)`). -/
def firstTermFrom (s : List Char) (start : Nat) : Option Nat :=
  ((List.range s.length).filter (fun j => decide (start ≤ j) && termAt s j)).head?

/-- Group 1 of `re.search(r'\[HDR\](.*?)(?=\n\[|\n$)', s, re.DOTALL)`:
the text between the first occurrence of the header and the first
subsequent lookahead position; `none` when the regex does not match. -/
def findSectionBody (header s : List Char) : Option (List Char) :=
  match findSub header s with
  | none => none
  | some i =>
    match firstTermFrom s (i + header.length) with
    | none => none
    | some j => some ((s.drop (i + header.length)).take (j - (i + header.length)))

/-- Group 1 of `re.search(r'Label:(.*)', text)`: the rest of the line after
the first occurrence of the label; `none` when the label does not occur. -/
def findField (label text : List Char) : Option (List Char) :=
  match findSub label text with
  | none => none
  | some i => some ((text.drop (i + label.length)).takeWhile (fun c => c ≠ '\n'))

/-- The characters removed by Python `str.strip()`: those for which
`str.isspace()` is true — the ASCII whitespace characters, the
file/group/record/unit separator controls, next line, no-break space,
Ogham space mark, the Unicode spaces U+2000..U+200A, the line and
paragraph separators, narrow no-break space, medium mathematical space,
and ideographic space. -/
def isSpaceChar (c : Char) : Bool :=
  c == ' ' || (decide ('\x09' ≤ c) && decide (c ≤ '\x0d')) ||
  (decide ('\x1c' ≤ c) && decide (c ≤ '\x1f')) ||
  c == '\x85' || c == '\xa0' || c == '\u1680' ||
  (decide ('\u2000' ≤ c) && decide (c ≤ '\u200a')) ||
  c == '\u2028' || c == '\u2029' || c == '\u202f' || c == '\u205f' || c == '\u3000'

/-- Python `str.strip()`: remove leading and trailing whitespace. -/
def stripChars (s : List Char) : List Char :=
  ((s.dropWhile isSpaceChar).reverse.dropWhile isSpaceChar).reverse

/-- The metadata dictionary built by `OsuFileParser.parse_osu_file`
(all five keys always present). -/
structure ChartMetadata where
  title : List Char
  artist : List Char
  version : List Char
  creator : List Char
  audio_filename : List Char
deriving DecidableEq, Repr

/-- One field of the metadata dictionary: the stripped rest-of-line after
the label, or the empty string when the label is absent. -/
def fieldVal (label text : List Char) : List Char :=
  match findField label text with
  | some v => stripChars v
  | none => []

/-- The `AudioFilename` extraction of `parse_osu_file`: the stripped
rest-of-line after the label inside the `[General]` section, or the empty
string when the section or the label is absent. -/
def audioFromGeneral (content : List Char) : List Char :=
  match findSectionBody generalHeader content with
  | none => []
  | some generalText => fieldVal audioLabel generalText

/-- `OsuFileParser.parse_osu_file`, lifted over the file content.  The first
argument is the parser's `self.metadata` attribute before the call; the
result pairs the attribute after the call with the returned dictionary
(`none` models the empty dictionary returned when the `[Metadata]` section
regex fails to match, which the callers treat as a parse failure). -/
def parse_osu_file (pst : Option ChartMetadata) (content : List Char) :
    Option ChartMetadata × Option ChartMetadata :=
  match findSectionBody metadataHeader content with
  | none => (pst, none)
  | some metadataText =>
    let md : ChartMetadata :=
      { title := fieldVal titleLabel metadataText
        artist := fieldVal artistLabel metadataText
        version := fieldVal versionLabel metadataText
        creator := fieldVal creatorLabel metadataText
        audio_filename := audioFromGeneral content }
    (some md, some md)

/-- The chart text of the Freedom Dive scenario in the specification. -/
def freedomDiveText : List Char :=
  String.data "[Metadata]\nTitle:Freedom Dive\nArtist:xi\nVersion:FOUR DIMENSIONS\nCreator:Nakagawa-Kanon\n"

/-! ## The Spotify service model -/

/-- One track dictionary as returned by the Spotify search, restricted to
the keys the source reads (`id`, `name`, `artists[0].name`,
`external_urls.spotify`). -/
structure Track where
  id : List Char
  name : List Char
  artistName : List Char
  spotifyUrl : List Char
deriving DecidableEq, Repr

/-- One entry of `current_user_playlists()['items']`, restricted to the
keys the source reads. -/
structure PlaylistInfo where
  name : List Char
  id : List Char
deriving DecidableEq, Repr

/-- Result of the `sp.search` call inside `SpotifyManager.search_track`:
either the result items of the first page, or a raised exception
(carrying its message). -/
inductive SearchOutcome where
  | ok (items : List Track)
  | err (e : List Char)
deriving DecidableEq, Repr

/-- Result of the paginated `sp.playlist_tracks`/`sp.next` listing inside
`SpotifyManager.get_playlist_tracks`: the chain of pages (each item is the
optional id of the item's track, `none` when `item['track']` or its id is
missing), or a raised exception. -/
inductive PageFetch where
  | ok (pages : List (List (Option (List Char))))
  | err (e : List Char)
deriving DecidableEq, Repr

/-- The remote Spotify service as seen through `spotipy`: a response for
every call the source issues. -/
structure SpotifyEnv where
  searchApi : List Char → List Char → SearchOutcome
  playlistTracksApi : List Char → PageFetch
  addApi : List Char → List Char → Except (List Char) Unit
  userPlaylistsApi : Except (List Char) (List PlaylistInfo)
  createApi : List Char → List Char → Option (List Char)

/-! ## Message strings of the source -/

def msgAlreadyExists : List Char := String.data "楽曲は既にプレイリストに存在します"

def msgAddOk : List Char := String.data "楽曲をプレイリストに追加しました"

def msgAddErrPrefix : List Char := String.data "楽曲追加エラー: "

def msgParseFailed : List Char := String.data "osuファイルの解析に失敗しました"

def msgNotFoundPrefix : List Char := String.data "楽曲が見つかりませんでした: "

def msgPlaylistFailed : List Char := String.data "プレイリストの取得/作成に失敗しました"

/-- The substring tested by `process_osu_file` to classify a failed add as
a duplicate. -/
def dupPhrase : List Char := String.data "既にプレイリストに存在します"

/-- The message `f"楽曲が見つかりませんでした: {title} - {artist}"`. -/
def msgNotFound (title artist : List Char) : List Char :=
  msgNotFoundPrefix ++ title ++ String.data " - " ++ artist

/-- Default playlist name of `get_or_create_osu_playlist`. -/
def defaultPlaylistName : List Char := String.data "osu! 楽曲ライブラリ"

/-- The fixed description passed to `create_playlist` by
`get_or_create_osu_playlist`. -/
def osuDescription : List Char := String.data "osu!ファイルから抽出した楽曲のライブラリ"

/-! ## SpotifyManager -/

/-- `SpotifyManager.search_track`: first item of the result page, `none`
when the result set is empty or the call raised (the `except` branch also
returns `None`). -/
def search_track (env : SpotifyEnv) (title artist : List Char) : Option Track :=
  match env.searchApi title artist with
  | SearchOutcome.ok items => items.head?
  | SearchOutcome.err _ => none

/-- The filter of the listing loop in `get_playlist_tracks`: an item is
kept when `item['track']` is present and `item['track']['id']` is truthy
(a missing track or a missing/empty id is collapsed to `none` here). -/
def keepItem : Option (List Char) → Option (List Char)
  | some tid => if tid = [] then none else some tid
  | none => none

/-- `SpotifyManager.get_playlist_tracks`: walk every page of the listing,
keeping the ids of items whose `item['track']` and `item['track']['id']`
are both truthy; a raised exception yields the empty list. -/
def get_playlist_tracks (fetch : PageFetch) : List (List Char) :=
  match fetch with
  | PageFetch.ok pages => pages.flatMap (fun page => page.filterMap keepItem)
  | PageFetch.err _ => []

/-- `SpotifyManager.is_track_in_playlist`: Python `in` over the fetched
id list. -/
def is_track_in_playlist (fetch : PageFetch) (track_id : List Char) : Bool :=
  decide (track_id ∈ get_playlist_tracks fetch)

/-- `SpotifyManager.add_track_to_playlist`: returns the
(success, message) pair of the source, plus an instrumentation flag that
records whether `sp.playlist_add_items` was called. -/
def add_track_to_playlist (env : SpotifyEnv) (playlist_id track_id : List Char)
    (check_duplicate : Bool) : Bool × List Char × Bool :=
  if check_duplicate && is_track_in_playlist (env.playlistTracksApi playlist_id) track_id then
    (false, msgAlreadyExists, false)
  else
    match env.addApi playlist_id track_id with
    | Except.ok _ => (true, msgAddOk, true)
    | Except.error e => (false, msgAddErrPrefix ++ e, true)

/-- First playlist of the listing whose name equals the requested name
(Python `==` on strings: exact, case-sensitive). -/
def findFirstMatch (name : List Char) : List PlaylistInfo → Option (List Char)
  | [] => none
  | p :: rest => if p.name = name then some p.id else findFirstMatch name rest

/-- `SpotifyManager.get_or_create_osu_playlist`: first exact-name match of
the caller's playlists, else `create_playlist` with the fixed description
(`createApi` models `create_playlist` including its own exception handling);
a raised exception during the lookup yields `None`. -/
def get_or_create_osu_playlist (env : SpotifyEnv) (playlist_name : List Char) :
    Option (List Char) :=
  match env.userPlaylistsApi with
  | Except.error _ => none
  | Except.ok pls =>
    match findFirstMatch playlist_name pls with
    | some pid => some pid
    | none => env.createApi playlist_name osuDescription

/-! ## OsuToLibrary (the orchestrator) -/

/-- One entry of `added_tracks` / `duplicate_tracks`. -/
structure TrackEntry where
  title : List Char
  artist : List Char
  spotify_url : List Char
  file_path : List Char
deriving DecidableEq, Repr

/-- One entry of `skipped_tracks`. -/
structure SkipEntry where
  title : List Char
  artist : List Char
  file_path : List Char
  reason : List Char
deriving DecidableEq, Repr

/-- The three outcome lists of one `OsuToLibrary` instance. -/
structure RunState where
  added_tracks : List TrackEntry
  duplicate_tracks : List TrackEntry
  skipped_tracks : List SkipEntry
deriving DecidableEq, Repr

/-- A fresh `OsuToLibrary` instance's outcome lists. -/
def emptyRun : RunState := ⟨[], [], []⟩

/-- Result of one `process_osu_file` call: the parser attribute after the
call, the outcome lists after the call, the returned (success, message)
pair, and the instrumentation flag of `add_track_to_playlist`. -/
structure ProcessResult where
  pst : Option ChartMetadata
  state : RunState
  success : Bool
  message : List Char
  addCalled : Bool
deriving DecidableEq, Repr

/-- The playlist id used by `process_osu_file` after the
`if not playlist_id` fallback (a Python-falsy id, `None` or the empty
string, is the empty list here). -/
def resolvePid (env : SpotifyEnv) (playlist_id : List Char) : List Char :=
  if playlist_id = [] then
    (get_or_create_osu_playlist env defaultPlaylistName).getD []
  else playlist_id

/-- The outcome classification at the end of `process_osu_file`: on
success the track is appended to `added_tracks`, on a failure whose
message contains the duplicate phrase to `duplicate_tracks`, otherwise to
`skipped_tracks`.  The argument `r` is the (success, message, addCalled)
result of `add_track_to_playlist`. -/
def classifyAdd (st : RunState) (track : Track) (file_path : List Char)
    (r : Bool × List Char × Bool) : RunState :=
  if r.1 then
    { st with added_tracks :=
        st.added_tracks ++ [⟨track.name, track.artistName, track.spotifyUrl, file_path⟩] }
  else if (findSub dupPhrase r.2.1).isSome then
    { st with duplicate_tracks :=
        st.duplicate_tracks ++ [⟨track.name, track.artistName, track.spotifyUrl, file_path⟩] }
  else
    { st with skipped_tracks :=
        st.skipped_tracks ++ [⟨track.name, track.artistName, file_path, r.2.1⟩] }

/-- The add step of `process_osu_file` (reached once a track is matched
and a playlist id is resolved). -/
def addOutcome (pst1 : Option ChartMetadata) (env : SpotifyEnv) (st : RunState) (track : Track)
    (file_path pid : List Char) (check_duplicate : Bool) : ProcessResult :=
  let r := add_track_to_playlist env pid track.id check_duplicate
  ⟨pst1, classifyAdd st track file_path r, r.1, r.2.1, r.2.2⟩

/-- `OsuToLibrary.process_osu_file`, lifted over the file content.  The
pure call `parse_osu_file pst content` is written out at each use (the
source binds it once; the function is pure, so the meaning is the
same). -/
def process_osu_file (pst : Option ChartMetadata) (env : SpotifyEnv) (st : RunState)
    (content file_path : List Char) (playlist_id : List Char) (check_duplicate : Bool) :
    ProcessResult :=
  match (parse_osu_file pst content).2 with
  | none => ⟨(parse_osu_file pst content).1, st, false, msgParseFailed, false⟩
  | some md =>
    match search_track env md.title md.artist with
    | none =>
      ⟨(parse_osu_file pst content).1, st, false, msgNotFound md.title md.artist, false⟩
    | some track =>
      if resolvePid env playlist_id = [] then
        ⟨(parse_osu_file pst content).1, st, false, msgPlaylistFailed, false⟩
      else
        addOutcome (parse_osu_file pst content).1 env st track file_path
          (resolvePid env playlist_id) check_duplicate

/-! ## The directory walk -/

/-- A directory listing, as a cons-list of entries: plain files (name and
content) and subdirectories (name, contents, and the rest of the
listing). -/
inductive Fs where
  | nil : Fs
  | file (nm c : List Char) (rest : Fs) : Fs
  | dir (nm : List Char) (sub : Fs) (rest : Fs) : Fs
deriving DecidableEq, Repr

/-- The chart-file extension test of `directory.glob("*.osu")`. -/
def endsWithOsu (nm : List Char) : Bool :=
  (String.data ".osu").isSuffixOf nm

/-- `directory.glob("*.osu")` (direct children only), as (name, content)
pairs. -/
def osuFilesDirect : Fs → List (List Char × List Char)
  | Fs.nil => []
  | Fs.file nm c rest =>
    (if endsWithOsu nm then [(nm, c)] else []) ++ osuFilesDirect rest
  | Fs.dir _ _ rest => osuFilesDirect rest

/-- `directory.rglob("*.osu")` (recursive), as (name, content) pairs. -/
def osuFilesRec : Fs → List (List Char × List Char)
  | Fs.nil => []
  | Fs.file nm c rest =>
    (if endsWithOsu nm then [(nm, c)] else []) ++ osuFilesRec rest
  | Fs.dir _ sub rest => osuFilesRec sub ++ osuFilesRec rest

/-- The per-file loop of `OsuToLibrary.process_directory`, threading the
parser attribute, the outcome lists and `added_count`. -/
def processFiles (env : SpotifyEnv) (playlist_id : List Char) (check_duplicate : Bool) :
    List (List Char × List Char) → Option ChartMetadata → RunState → Nat →
      Option ChartMetadata × RunState × Nat
  | [], pst, st, n => (pst, st, n)
  | f :: rest, pst, st, n =>
    let r := process_osu_file pst env st f.2 f.1 playlist_id check_duplicate
    processFiles env playlist_id check_duplicate rest r.pst r.state
      (if r.success then n + 1 else n)

/-- `OsuToLibrary.process_directory`.  The directory argument is `none`
when the path does not exist (the `directory.exists()` test fails); the
playlist name is the empty list when absent (Python falsy). -/
def process_directory (pst : Option ChartMetadata) (env : SpotifyEnv) (st : RunState)
    (fsdir : Option Fs) (playlist_name : List Char) (check_duplicate recursive : Bool) :
    Option ChartMetadata × RunState × Nat :=
  match fsdir with
  | none => (pst, st, 0)
  | some entries =>
    let files := if recursive then osuFilesRec entries else osuFilesDirect entries
    if files = [] then (pst, st, 0)
    else
      let playlist_id :=
        if playlist_name = [] then []
        else (get_or_create_osu_playlist env playlist_name).getD []
      processFiles env playlist_id check_duplicate files pst st 0

/-! ## Helper lemmas about stripping -/

theorem dropWhile_head_not {α : Type} (p : α → Bool) (l : List α) :
    List.dropWhile p l = [] ∨
      ∃ x xs, List.dropWhile p l = x :: xs ∧ p x = false := by
  induction l with
  | nil => exact Or.inl rfl
  | cons c t ih =>
    by_cases h : p c
    · simpa [List.dropWhile_cons, h] using ih
    · exact Or.inr ⟨c, t, by simp [List.dropWhile_cons, h], by simp [h]⟩

theorem dropWhile_of_head_not {α : Type} (p : α → Bool) (l : List α)
    (h : ∀ x xs, l = x :: xs → p x = false) : List.dropWhile p l = l := by
  cases l with
  | nil => rfl
  | cons c t => simp [List.dropWhile_cons, h c t rfl]

theorem dropWhile_idem {α : Type} (p : α → Bool) (l : List α) :
    List.dropWhile p (List.dropWhile p l) = List.dropWhile p l := by
  rcases dropWhile_head_not p l with h | ⟨x, xs, h, hx⟩
  · rw [h]; rfl
  · rw [h]; simp [List.dropWhile_cons, hx]

theorem getLast?_dropWhile {α : Type} (p : α → Bool) (l : List α)
    (h : List.dropWhile p l ≠ []) :
    (List.dropWhile p l).getLast? = l.getLast? := by
  induction l with
  | nil => simp at h
  | cons c t ih =>
    by_cases hc : p c
    · rw [List.dropWhile_cons] at h ⊢
      simp only [hc, if_true] at h ⊢
      have ht : t ≠ [] := by
        intro e
        rw [e] at h
        exact h rfl
      rw [ih h]
      cases t with
      | nil => exact absurd rfl ht
      | cons b u => rw [List.getLast?_cons_cons]
    · rw [List.dropWhile_cons]
      simp [hc]

theorem stripChars_idem (l : List Char) : stripChars (stripChars l) = stripChars l := by
  unfold stripChars
  set p := isSpaceChar with hp
  set a := List.dropWhile p l with ha
  set r := List.dropWhile p a.reverse with hr
  rcases hr0 : r with _ | ⟨x, xs⟩
  · simp
  · have hrne : r ≠ [] := by rw [hr0]; simp
    have h1 : List.dropWhile p r.reverse = r.reverse := by
      apply dropWhile_of_head_not
      intro y ys hy
      have hgl : r.getLast? = some y := by
        rw [← List.head?_reverse, hy]
        rfl
      have h2 : r.getLast? = a.reverse.getLast? := by
        rw [hr]
        exact getLast?_dropWhile p a.reverse (by rw [← hr]; exact hrne)
      rw [List.getLast?_reverse] at h2
      rcases dropWhile_head_not p l with ha0 | ⟨z, zs, hz, hpz⟩
      · exfalso
        rw [← ha] at ha0
        rw [hr, ha0] at hr0
        simp at hr0
      · rw [← ha] at hz
        have hhd : a.head? = some z := by rw [hz]; rfl
        rw [hhd] at h2
        rw [hgl] at h2
        cases h2
        exact hpz
    rw [← hr0, h1, List.reverse_reverse]
    have h3 : List.dropWhile p r = r := by
      rw [hr]
      exact dropWhile_idem p a.reverse
    rw [h3]

theorem stripChars_fieldVal (label text : List Char) :
    stripChars (fieldVal label text) = fieldVal label text := by
  unfold fieldVal
  cases findField label text with
  | none => rfl
  | some v => exact stripChars_idem v

theorem stripChars_audioFromGeneral (content : List Char) :
    stripChars (audioFromGeneral content) = audioFromGeneral content := by
  unfold audioFromGeneral
  rcases findSectionBody generalHeader content with _ | g
  · rfl
  · exact stripChars_fieldVal audioLabel g

/-! ## Helper lemmas about the orchestrator -/

theorem addOutcome_def (pst1 : Option ChartMetadata) (env : SpotifyEnv) (st : RunState)
    (track : Track) (fp pid : List Char) (cd : Bool) :
    addOutcome pst1 env st track fp pid cd =
      ⟨pst1, classifyAdd st track fp (add_track_to_playlist env pid track.id cd),
        (add_track_to_playlist env pid track.id cd).1,
        (add_track_to_playlist env pid track.id cd).2.1,
        (add_track_to_playlist env pid track.id cd).2.2⟩ := rfl

theorem classifyAdd_cases (st : RunState) (track : Track) (fp : List Char)
    (r : Bool × List Char × Bool) :
    (r.1 = true ∧ classifyAdd st track fp r =
      { st with added_tracks :=
          st.added_tracks ++ [⟨track.name, track.artistName, track.spotifyUrl, fp⟩] }) ∨
    (r.1 = false ∧ classifyAdd st track fp r =
      { st with duplicate_tracks :=
          st.duplicate_tracks ++ [⟨track.name, track.artistName, track.spotifyUrl, fp⟩] }) ∨
    (r.1 = false ∧ classifyAdd st track fp r =
      { st with skipped_tracks :=
          st.skipped_tracks ++ [⟨track.name, track.artistName, fp, r.2.1⟩] }) := by
  unfold classifyAdd
  by_cases h1 : r.1 = true
  · exact Or.inl ⟨h1, by simp [h1]⟩
  · by_cases h2 : (findSub dupPhrase r.2.1).isSome
    · exact Or.inr (Or.inl ⟨by simpa using h1, by simp [h1, h2]⟩)
    · exact Or.inr (Or.inr ⟨by simpa using h1, by simp [h1, h2]⟩)

theorem process_parse_none (pst : Option ChartMetadata) (env : SpotifyEnv) (st : RunState)
    (content fp playlist_id : List Char) (cd : Bool)
    (h : (parse_osu_file pst content).2 = none) :
    process_osu_file pst env st content fp playlist_id cd =
      ⟨(parse_osu_file pst content).1, st, false, msgParseFailed, false⟩ := by
  unfold process_osu_file
  rw [h]

theorem process_search_none (pst : Option ChartMetadata) (env : SpotifyEnv) (st : RunState)
    (content fp playlist_id : List Char) (cd : Bool) (md : ChartMetadata)
    (hmd : (parse_osu_file pst content).2 = some md)
    (hs : search_track env md.title md.artist = none) :
    process_osu_file pst env st content fp playlist_id cd =
      ⟨(parse_osu_file pst content).1, st, false, msgNotFound md.title md.artist, false⟩ := by
  unfold process_osu_file
  rw [hmd]
  simp only [hs]

theorem process_add_reached (pst : Option ChartMetadata) (env : SpotifyEnv) (st : RunState)
    (content fp playlist_id : List Char) (cd : Bool) (md : ChartMetadata) (track : Track)
    (hmd : (parse_osu_file pst content).2 = some md)
    (hs : search_track env md.title md.artist = some track)
    (hne : resolvePid env playlist_id ≠ []) :
    process_osu_file pst env st content fp playlist_id cd =
      addOutcome (parse_osu_file pst content).1 env st track fp
        (resolvePid env playlist_id) cd := by
  unfold process_osu_file
  rw [hmd]
  simp only [hs]
  rw [if_neg hne]

theorem process_state_cases (pst : Option ChartMetadata) (env : SpotifyEnv) (st : RunState)
    (content fp playlist_id : List Char) (cd : Bool) :
    ((process_osu_file pst env st content fp playlist_id cd).success = false ∧
      (process_osu_file pst env st content fp playlist_id cd).state = st) ∨
    ((process_osu_file pst env st content fp playlist_id cd).success = true ∧
      ∃ e, (process_osu_file pst env st content fp playlist_id cd).state =
        { st with added_tracks := st.added_tracks ++ [e] }) ∨
    ((process_osu_file pst env st content fp playlist_id cd).success = false ∧
      ∃ e, (process_osu_file pst env st content fp playlist_id cd).state =
        { st with duplicate_tracks := st.duplicate_tracks ++ [e] }) ∨
    ((process_osu_file pst env st content fp playlist_id cd).success = false ∧
      ∃ e, (process_osu_file pst env st content fp playlist_id cd).state =
        { st with skipped_tracks := st.skipped_tracks ++ [e] }) := by
  rcases hmd : (parse_osu_file pst content).2 with _ | md
  · rw [process_parse_none pst env st content fp playlist_id cd hmd]
    exact Or.inl ⟨rfl, rfl⟩
  · rcases hs : search_track env md.title md.artist with _ | track
    · rw [process_search_none pst env st content fp playlist_id cd md hmd hs]
      exact Or.inl ⟨rfl, rfl⟩
    · by_cases hpid : resolvePid env playlist_id = []
      · unfold process_osu_file
        rw [hmd]
        simp only [hs]
        rw [if_pos hpid]
        exact Or.inl ⟨rfl, rfl⟩
      · rw [process_add_reached pst env st content fp playlist_id cd md track hmd hs hpid,
          addOutcome_def]
        rcases classifyAdd_cases st track fp
            (add_track_to_playlist env (resolvePid env playlist_id) track.id cd) with
          ⟨h1, h2⟩ | ⟨h1, h2⟩ | ⟨h1, h2⟩
        · exact Or.inr (Or.inl ⟨h1, _, h2⟩)
        · exact Or.inr (Or.inr (Or.inl ⟨h1, _, h2⟩))
        · exact Or.inr (Or.inr (Or.inr ⟨h1, _, h2⟩))

theorem processFiles_cons (env : SpotifyEnv) (pid : List Char) (cd : Bool)
    (f : List Char × List Char) (rest : List (List Char × List Char))
    (pst : Option ChartMetadata) (st : RunState) (n : Nat) :
    processFiles env pid cd (f :: rest) pst st n =
      processFiles env pid cd rest
        (process_osu_file pst env st f.2 f.1 pid cd).pst
        (process_osu_file pst env st f.2 f.1 pid cd).state
        (if (process_osu_file pst env st f.2 f.1 pid cd).success then n + 1 else n) := rfl

theorem processFiles_count (env : SpotifyEnv) (pid : List Char) (cd : Bool)
    (files : List (List Char × List Char)) :
    ∀ (pst : Option ChartMetadata) (st : RunState) (n : Nat),
      (processFiles env pid cd files pst st n).2.2 + st.added_tracks.length =
        n + (processFiles env pid cd files pst st n).2.1.added_tracks.length := by
  induction files with
  | nil =>
    intro pst st n
    simp only [processFiles]
  | cons f rest ih =>
    intro pst st n
    rw [processFiles_cons]
    rcases process_state_cases pst env st f.2 f.1 pid cd with
      ⟨hsucc, hst⟩ | ⟨hsucc, e, hst⟩ | ⟨hsucc, e, hst⟩ | ⟨hsucc, e, hst⟩
    · rw [hsucc, hst, if_neg Bool.false_ne_true]
      exact ih _ st n
    · rw [hsucc, hst, if_pos rfl]
      have h2 := ih (process_osu_file pst env st f.2 f.1 pid cd).pst
        { st with added_tracks := st.added_tracks ++ [e] } (n + 1)
      dsimp only at h2
      simp only [List.length_append, List.length_cons, List.length_nil] at h2
      omega
    · rw [hsucc, hst, if_neg Bool.false_ne_true]
      have h2 := ih (process_osu_file pst env st f.2 f.1 pid cd).pst
        { st with duplicate_tracks := st.duplicate_tracks ++ [e] } n
      dsimp only at h2
      omega
    · rw [hsucc, hst, if_neg Bool.false_ne_true]
      have h2 := ih (process_osu_file pst env st f.2 f.1 pid cd).pst
        { st with skipped_tracks := st.skipped_tracks ++ [e] } n
      dsimp only at h2
      omega

/-! ## Enumeration characterizations -/

/-- Name `nm` with content `c` is a direct-child chart file of the
listing (the files `directory.glob("*.osu")` yields). -/
inductive DirectOsuFile (nm c : List Char) : Fs → Prop where
  | here (rest : Fs) :
      endsWithOsu nm = true → DirectOsuFile nm c (Fs.file nm c rest)
  | skipFile (nm' c' : List Char) (rest : Fs) :
      DirectOsuFile nm c rest → DirectOsuFile nm c (Fs.file nm' c' rest)
  | skipDir (d : List Char) (sub rest : Fs) :
      DirectOsuFile nm c rest → DirectOsuFile nm c (Fs.dir d sub rest)

/-- Name `nm` with content `c` is a chart file anywhere in the tree (the
files `directory.rglob("*.osu")` yields). -/
inductive RecOsuFile (nm c : List Char) : Fs → Prop where
  | here (rest : Fs) :
      endsWithOsu nm = true → RecOsuFile nm c (Fs.file nm c rest)
  | skipFile (nm' c' : List Char) (rest : Fs) :
      RecOsuFile nm c rest → RecOsuFile nm c (Fs.file nm' c' rest)
  | inDir (d : List Char) (sub rest : Fs) :
      RecOsuFile nm c sub → RecOsuFile nm c (Fs.dir d sub rest)
  | skipDir (d : List Char) (sub rest : Fs) :
      RecOsuFile nm c rest → RecOsuFile nm c (Fs.dir d sub rest)

theorem mem_osuFilesDirect (nm c : List Char) (fs : Fs) :
    (nm, c) ∈ osuFilesDirect fs ↔ DirectOsuFile nm c fs := by
  constructor
  · intro h
    induction fs with
    | nil => simp [osuFilesDirect] at h
    | file nm' c' rest ih =>
      rw [osuFilesDirect] at h
      rcases List.mem_append.mp h with h1 | h2
      · by_cases he : endsWithOsu nm' = true
        · rw [if_pos he] at h1
          simp only [List.mem_singleton, Prod.mk.injEq] at h1
          obtain ⟨rfl, rfl⟩ := h1
          exact DirectOsuFile.here rest he
        · rw [if_neg he] at h1
          simp at h1
      · exact DirectOsuFile.skipFile nm' c' rest (ih h2)
    | dir d sub rest ihsub ihrest =>
      rw [osuFilesDirect] at h
      exact DirectOsuFile.skipDir d sub rest (ihrest h)
  · intro h
    induction h with
    | here rest he =>
      rw [osuFilesDirect, if_pos he]
      simp
    | skipFile nm' c' rest _ ih =>
      rw [osuFilesDirect]
      exact List.mem_append.mpr (Or.inr ih)
    | skipDir d sub rest _ ih =>
      rw [osuFilesDirect]
      exact ih

theorem mem_osuFilesRec (nm c : List Char) (fs : Fs) :
    (nm, c) ∈ osuFilesRec fs ↔ RecOsuFile nm c fs := by
  constructor
  · intro h
    induction fs with
    | nil => simp [osuFilesRec] at h
    | file nm' c' rest ih =>
      rw [osuFilesRec] at h
      rcases List.mem_append.mp h with h1 | h2
      · by_cases he : endsWithOsu nm' = true
        · rw [if_pos he] at h1
          simp only [List.mem_singleton, Prod.mk.injEq] at h1
          obtain ⟨rfl, rfl⟩ := h1
          exact RecOsuFile.here rest he
        · rw [if_neg he] at h1
          simp at h1
      · exact RecOsuFile.skipFile nm' c' rest (ih h2)
    | dir d sub rest ihsub ihrest =>
      rw [osuFilesRec] at h
      rcases List.mem_append.mp h with h1 | h2
      · exact RecOsuFile.inDir d sub rest (ihsub h1)
      · exact RecOsuFile.skipDir d sub rest (ihrest h2)
  · intro h
    induction h with
    | here rest he =>
      rw [osuFilesRec, if_pos he]
      simp
    | skipFile nm' c' rest _ ih =>
      rw [osuFilesRec]
      exact List.mem_append.mpr (Or.inr ih)
    | inDir d sub rest _ ih =>
      rw [osuFilesRec]
      exact List.mem_append.mpr (Or.inl ih)
    | skipDir d sub rest _ ih =>
      rw [osuFilesRec]
      exact List.mem_append.mpr (Or.inr ih)

/-! ## Playlist lookup characterizations -/

theorem findFirstMatch_none_iff (name : List Char) (items : List PlaylistInfo) :
    findFirstMatch name items = none ↔ ∀ p ∈ items, p.name ≠ name := by
  induction items with
  | nil => simp [findFirstMatch]
  | cons p rest ih =>
    rw [findFirstMatch]
    by_cases h : p.name = name
    · simp [h]
    · simp [h, ih]

theorem findFirstMatch_some_iff (name pid : List Char) (items : List PlaylistInfo) :
    findFirstMatch name items = some pid ↔
      ∃ pre p post, items = pre ++ p :: post ∧ p.name = name ∧ p.id = pid ∧
        ∀ q ∈ pre, q.name ≠ name := by
  induction items with
  | nil =>
    simp only [findFirstMatch]
    constructor
    · intro h
      exact absurd h (by simp)
    · rintro ⟨pre, p, post, hdec, -⟩
      exact absurd hdec (by simp)
  | cons a rest ih =>
    rw [findFirstMatch]
    by_cases h : a.name = name
    · rw [if_pos h]
      constructor
      · intro he
        injection he with he
        exact ⟨[], a, rest, rfl, h, he, by simp⟩
      · rintro ⟨pre, p, post, hdec, hname, hid, hpre⟩
        cases pre with
        | nil =>
          simp only [List.nil_append, List.cons.injEq] at hdec
          obtain ⟨rfl, rfl⟩ := hdec
          rw [hid]
        | cons b pre' =>
          simp only [List.cons_append, List.cons.injEq] at hdec
          obtain ⟨rfl, -⟩ := hdec
          exact absurd h (hpre a (by simp))
    · rw [if_neg h, ih]
      constructor
      · rintro ⟨pre, p, post, hdec, hname, hid, hpre⟩
        refine ⟨a :: pre, p, post, by rw [hdec]; rfl, hname, hid, ?_⟩
        intro q hq
        rcases List.mem_cons.mp hq with rfl | hq'
        · exact h
        · exact hpre q hq'
      · rintro ⟨pre, p, post, hdec, hname, hid, hpre⟩
        cases pre with
        | nil =>
          simp only [List.nil_append, List.cons.injEq] at hdec
          obtain ⟨rfl, rfl⟩ := hdec
          exact absurd hname h
        | cons b pre' =>
          simp only [List.cons_append, List.cons.injEq] at hdec
          obtain ⟨rfl, hdec'⟩ := hdec
          exact ⟨pre', p, post, hdec', hname, hid, fun q hq => hpre q (by simp [hq])⟩

/-! ## Membership listing characterization -/

theorem mem_get_playlist_tracks (pages : List (List (Option (List Char)))) (tid : List Char) :
    tid ∈ get_playlist_tracks (PageFetch.ok pages) ↔
      ∃ page ∈ pages, ∃ item ∈ page, keepItem item = some tid := by
  unfold get_playlist_tracks
  rw [List.mem_flatMap]
  constructor
  · rintro ⟨page, hp, hmem⟩
    rw [List.mem_filterMap] at hmem
    obtain ⟨item, hi, hk⟩ := hmem
    exact ⟨page, hp, item, hi, hk⟩
  · rintro ⟨page, hp, item, hi, hk⟩
    exact ⟨page, hp, List.mem_filterMap.mpr ⟨item, hi, hk⟩⟩

/-! ## Concrete scenario data -/

/-- The metadata record extracted from the Freedom Dive chart text. -/
def fdMeta : ChartMetadata :=
  ⟨String.data "Freedom Dive", String.data "xi", String.data "FOUR DIMENSIONS",
    String.data "Nakagawa-Kanon", []⟩

/-- A catalog track used in concrete scenarios. -/
def trackA : Track :=
  ⟨String.data "TID1", String.data "Freedom Dive", String.data "xi",
    String.data "https://open.spotify.com/track/TID1"⟩

/-- A chart text with no sections at all. -/
def noSectionText : List Char := String.data "just some text, no sections"

/-- Environment where the catalog search result set is empty and every
other call succeeds. -/
def envNoMatch : SpotifyEnv where
  searchApi := fun _ _ => SearchOutcome.ok []
  playlistTracksApi := fun _ => PageFetch.ok []
  addApi := fun _ _ => Except.ok ()
  userPlaylistsApi := Except.ok []
  createApi := fun _ _ => some (String.data "PL1")

/-- Environment where the catalog search call raises. -/
def envSearchErr : SpotifyEnv where
  searchApi := fun _ _ => SearchOutcome.err (String.data "boom")
  playlistTracksApi := fun _ => PageFetch.ok []
  addApi := fun _ _ => Except.ok ()
  userPlaylistsApi := Except.ok []
  createApi := fun _ _ => some (String.data "PL1")

/-- Environment where the search finds `trackA` and the target playlist
already contains it. -/
def envDup : SpotifyEnv where
  searchApi := fun _ _ => SearchOutcome.ok [trackA]
  playlistTracksApi := fun _ => PageFetch.ok [[some (String.data "TID1")]]
  addApi := fun _ _ => Except.ok ()
  userPlaylistsApi := Except.ok []
  createApi := fun _ _ => some (String.data "PL1")

/-- Environment where the search finds `trackA` and the membership
listing raises. -/
def envFetchErr : SpotifyEnv where
  searchApi := fun _ _ => SearchOutcome.ok [trackA]
  playlistTracksApi := fun _ => PageFetch.err (String.data "network down")
  addApi := fun _ _ => Except.ok ()
  userPlaylistsApi := Except.ok []
  createApi := fun _ _ => some (String.data "PL1")

/-- Environment where every call succeeds and the playlist is empty. -/
def envOk : SpotifyEnv where
  searchApi := fun _ _ => SearchOutcome.ok [trackA]
  playlistTracksApi := fun _ => PageFetch.ok []
  addApi := fun _ _ => Except.ok ()
  userPlaylistsApi := Except.ok [⟨String.data "My List", String.data "PL0"⟩]
  createApi := fun _ _ => some (String.data "PL1")

/-! ## Claim C1 -/

/-- C1, counterexample: on a file whose parse succeeds but whose catalog
search returns no match, `process_osu_file` leaves all three outcome
lists unchanged — in particular the skipped list stays empty, refuting
the claim that such a file "yields an entry in the skipped list only"
(and likewise that every processed file lands in exactly one list). -/
theorem C1_counterexample :
    search_track envNoMatch (String.data "Freedom Dive") (String.data "xi") = none ∧
    (parse_osu_file none freedomDiveText).2 = some fdMeta ∧
    (process_osu_file none envNoMatch emptyRun freedomDiveText
      (String.data "song.osu") (String.data "PL1") true).state.skipped_tracks = [] ∧
    (process_osu_file none envNoMatch emptyRun freedomDiveText
      (String.data "song.osu") (String.data "PL1") true).state = emptyRun := by
  decide

/-- C1, amended: the outcome lists are append-only, and per processed
file at most one of the three lists receives exactly one appended entry
(exactly one when the add step is reached); a file whose parse fails or
whose catalog search returns none leaves all three lists unchanged and
contributes no entry anywhere. -/
theorem C1_amended (pst : Option ChartMetadata) (env : SpotifyEnv) (st : RunState)
    (content fp playlist_id : List Char) (cd : Bool) :
    (∃ ta, (process_osu_file pst env st content fp playlist_id cd).state.added_tracks =
      st.added_tracks ++ ta) ∧
    (∃ td, (process_osu_file pst env st content fp playlist_id cd).state.duplicate_tracks =
      st.duplicate_tracks ++ td) ∧
    (∃ ts, (process_osu_file pst env st content fp playlist_id cd).state.skipped_tracks =
      st.skipped_tracks ++ ts) ∧
    ((process_osu_file pst env st content fp playlist_id cd).state = st ∨
      (∃ e, (process_osu_file pst env st content fp playlist_id cd).state =
        { st with added_tracks := st.added_tracks ++ [e] }) ∨
      (∃ e, (process_osu_file pst env st content fp playlist_id cd).state =
        { st with duplicate_tracks := st.duplicate_tracks ++ [e] }) ∨
      (∃ e, (process_osu_file pst env st content fp playlist_id cd).state =
        { st with skipped_tracks := st.skipped_tracks ++ [e] })) ∧
    ((parse_osu_file pst content).2 = none →
      (process_osu_file pst env st content fp playlist_id cd).state = st) ∧
    (∀ md, (parse_osu_file pst content).2 = some md →
      search_track env md.title md.artist = none →
      (process_osu_file pst env st content fp playlist_id cd).state = st) ∧
    (∀ md track, (parse_osu_file pst content).2 = some md →
      search_track env md.title md.artist = some track →
      resolvePid env playlist_id ≠ [] →
      ((∃ e, (process_osu_file pst env st content fp playlist_id cd).state =
          { st with added_tracks := st.added_tracks ++ [e] }) ∨
        (∃ e, (process_osu_file pst env st content fp playlist_id cd).state =
          { st with duplicate_tracks := st.duplicate_tracks ++ [e] }) ∨
        (∃ e, (process_osu_file pst env st content fp playlist_id cd).state =
          { st with skipped_tracks := st.skipped_tracks ++ [e] }))) := by
  have h4 : (process_osu_file pst env st content fp playlist_id cd).state = st ∨
      (∃ e, (process_osu_file pst env st content fp playlist_id cd).state =
        { st with added_tracks := st.added_tracks ++ [e] }) ∨
      (∃ e, (process_osu_file pst env st content fp playlist_id cd).state =
        { st with duplicate_tracks := st.duplicate_tracks ++ [e] }) ∨
      (∃ e, (process_osu_file pst env st content fp playlist_id cd).state =
        { st with skipped_tracks := st.skipped_tracks ++ [e] }) := by
    rcases process_state_cases pst env st content fp playlist_id cd with
      ⟨-, h⟩ | ⟨-, e, h⟩ | ⟨-, e, h⟩ | ⟨-, e, h⟩
    · exact Or.inl h
    · exact Or.inr (Or.inl ⟨e, h⟩)
    · exact Or.inr (Or.inr (Or.inl ⟨e, h⟩))
    · exact Or.inr (Or.inr (Or.inr ⟨e, h⟩))
  refine ⟨?_, ?_, ?_, h4, ?_, ?_, ?_⟩
  · rcases h4 with h | ⟨e, h⟩ | ⟨e, h⟩ | ⟨e, h⟩ <;> rw [h]
    exacts [⟨[], by simp⟩, ⟨[e], by simp⟩, ⟨[], by simp⟩, ⟨[], by simp⟩]
  · rcases h4 with h | ⟨e, h⟩ | ⟨e, h⟩ | ⟨e, h⟩ <;> rw [h]
    exacts [⟨[], by simp⟩, ⟨[], by simp⟩, ⟨[e], by simp⟩, ⟨[], by simp⟩]
  · rcases h4 with h | ⟨e, h⟩ | ⟨e, h⟩ | ⟨e, h⟩ <;> rw [h]
    exacts [⟨[], by simp⟩, ⟨[], by simp⟩, ⟨[], by simp⟩, ⟨[e], by simp⟩]
  · intro h
    rw [process_parse_none pst env st content fp playlist_id cd h]
  · intro md hmd hs
    rw [process_search_none pst env st content fp playlist_id cd md hmd hs]
  · intro md track hmd hs hne
    rw [process_add_reached pst env st content fp playlist_id cd md track hmd hs hne,
      addOutcome_def]
    rcases classifyAdd_cases st track fp
        (add_track_to_playlist env (resolvePid env playlist_id) track.id cd) with
      ⟨-, h2⟩ | ⟨-, h2⟩ | ⟨-, h2⟩
    · exact Or.inl ⟨_, h2⟩
    · exact Or.inr (Or.inl ⟨_, h2⟩)
    · exact Or.inr (Or.inr ⟨_, h2⟩)

/-- Witness for C1 (amended), at a concrete parse-failing input (no list
touched) and a concrete add-reached input (exactly one list appended). -/
theorem C1_amended_witness :
    (process_osu_file none envOk emptyRun noSectionText
      (String.data "a.osu") (String.data "PL1") true).state = emptyRun ∧
    ((∃ e, (process_osu_file none envOk emptyRun freedomDiveText
        (String.data "song.osu") (String.data "PL1") true).state =
        { emptyRun with added_tracks := emptyRun.added_tracks ++ [e] }) ∨
      (∃ e, (process_osu_file none envOk emptyRun freedomDiveText
        (String.data "song.osu") (String.data "PL1") true).state =
        { emptyRun with duplicate_tracks := emptyRun.duplicate_tracks ++ [e] }) ∨
      (∃ e, (process_osu_file none envOk emptyRun freedomDiveText
        (String.data "song.osu") (String.data "PL1") true).state =
        { emptyRun with skipped_tracks := emptyRun.skipped_tracks ++ [e] })) :=
  ⟨(C1_amended none envOk emptyRun noSectionText
      (String.data "a.osu") (String.data "PL1") true).2.2.2.2.1 (by decide),
   (C1_amended none envOk emptyRun freedomDiveText
      (String.data "song.osu") (String.data "PL1") true).2.2.2.2.2.2
     fdMeta trackA (by decide) (by decide) (by decide)⟩

/-! ## Claim C2 -/

/-- C2: `is_track_in_playlist` is true exactly when the id occurs in the
sequence returned by `get_playlist_tracks`; that sequence contains an id
exactly when some page of the paginated listing has a kept entry for it
(entries with a removed track reference contribute nothing); and the
listing concatenates all pages in order. -/
theorem C2_membership_consistent (fetch : PageFetch) (tid : List Char)
    (pages pages2 : List (List (Option (List Char)))) :
    (is_track_in_playlist fetch tid = true ↔ tid ∈ get_playlist_tracks fetch) ∧
    (tid ∈ get_playlist_tracks (PageFetch.ok pages) ↔
      ∃ page ∈ pages, ∃ item ∈ page, keepItem item = some tid) ∧
    (get_playlist_tracks (PageFetch.ok (pages ++ pages2)) =
      get_playlist_tracks (PageFetch.ok pages) ++ get_playlist_tracks (PageFetch.ok pages2)) := by
  refine ⟨?_, mem_get_playlist_tracks pages tid, ?_⟩
  · unfold is_track_in_playlist
    exact decide_eq_true_iff
  · unfold get_playlist_tracks
    exact List.flatMap_append pages pages2 _

/-- Witness for C2, with pagination spanning two pages and a removed
entry on the second page. -/
theorem C2_witness :
    is_track_in_playlist
        (PageFetch.ok [[some (String.data "A")], [none, some (String.data "B")]])
        (String.data "B") = true ↔
      String.data "B" ∈ get_playlist_tracks
        (PageFetch.ok [[some (String.data "A")], [none, some (String.data "B")]]) :=
  (C2_membership_consistent
    (PageFetch.ok [[some (String.data "A")], [none, some (String.data "B")]])
    (String.data "B") [] []).1

/-! ## Claim C3 -/

theorem fieldVal_of_findSub_some (label text : List Char) (i : Nat)
    (h : findSub label text = some i) :
    fieldVal label text =
      stripChars ((text.drop (i + label.length)).takeWhile (fun ch => ch ≠ '\n')) := by
  unfold fieldVal findField
  rw [h]

theorem fieldVal_of_findSub_none (label text : List Char)
    (h : findSub label text = none) : fieldVal label text = [] := by
  unfold fieldVal findField
  rw [h]

theorem audioFromGeneral_of_some (content gsect : List Char)
    (h : findSectionBody generalHeader content = some gsect) :
    audioFromGeneral content = fieldVal audioLabel gsect := by
  unfold audioFromGeneral
  rw [h]

theorem audioFromGeneral_of_none (content : List Char)
    (h : findSectionBody generalHeader content = none) :
    audioFromGeneral content = [] := by
  unfold audioFromGeneral
  rw [h]

theorem parse_osu_file_eq_some (pst : Option ChartMetadata) (content mt : List Char)
    (hs : findSectionBody metadataHeader content = some mt) :
    parse_osu_file pst content =
      (some { title := fieldVal titleLabel mt, artist := fieldVal artistLabel mt,
              version := fieldVal versionLabel mt, creator := fieldVal creatorLabel mt,
              audio_filename := audioFromGeneral content },
       some { title := fieldVal titleLabel mt, artist := fieldVal artistLabel mt,
              version := fieldVal versionLabel mt, creator := fieldVal creatorLabel mt,
              audio_filename := audioFromGeneral content }) := by
  unfold parse_osu_file
  rw [hs]

theorem parse_osu_file_some (pst pst2 : Option ChartMetadata) (content : List Char)
    (md : ChartMetadata) (h : parse_osu_file pst content = (pst2, some md)) :
    ∃ mt, findSectionBody metadataHeader content = some mt ∧
      md = { title := fieldVal titleLabel mt, artist := fieldVal artistLabel mt,
             version := fieldVal versionLabel mt, creator := fieldVal creatorLabel mt,
             audio_filename := audioFromGeneral content } := by
  rcases hs : findSectionBody metadataHeader content with _ | mt
  · exfalso
    have hp : parse_osu_file pst content = (pst, none) := by
      unfold parse_osu_file
      rw [hs]
    rw [hp] at h
    have h2 : (none : Option ChartMetadata) = some md := congrArg Prod.snd h
    exact Option.noConfusion h2
  · have heq := parse_osu_file_eq_some pst content mt hs
    rw [heq] at h
    have h2 : some ({ title := fieldVal titleLabel mt, artist := fieldVal artistLabel mt,
                      version := fieldVal versionLabel mt, creator := fieldVal creatorLabel mt,
                      audio_filename := audioFromGeneral content } : ChartMetadata) = some md :=
      congrArg Prod.snd h
    exact ⟨mt, rfl, (Option.some.inj h2).symm⟩

/-- A chart text whose Title value itself contains the label. -/
def labelInValueText : List Char :=
  String.data "[Metadata]\nTitle:Title:B\nArtist:a\nVersion:v\nCreator:c\n"

/-- C3, counterexample: on a chart text with a complete metadata section
whose Title line is `Title:Title:B`, the extracted title is `Title:B`,
which contains the label `Title:` — refuting the claim that a present
field never contains its field label. -/
theorem C3_counterexample :
    (parse_osu_file none labelInValueText).2 =
      some ⟨String.data "Title:B", String.data "a", String.data "v", String.data "c", []⟩ ∧
    (findSub titleLabel (String.data "Title:B")).isSome = true := by
  decide

/-- C3, amended: every present field of the extracted record — title,
artist, version, creator within the metadata section, and audioFilename
within the general section — is the rest-of-line text after the first
occurrence of the field's label, trimmed of leading and trailing
whitespace (it may contain the label when the value text itself does);
every missing field, and audioFilename when the general section is
absent, is the empty string; and on the Freedom Dive chart text the
extraction returns exactly the record of the scenario. -/
theorem C3_amended (pst pst2 : Option ChartMetadata) (content : List Char) (md : ChartMetadata)
    (h : parse_osu_file pst content = (pst2, some md)) :
    (stripChars md.title = md.title ∧ stripChars md.artist = md.artist ∧
      stripChars md.version = md.version ∧ stripChars md.creator = md.creator ∧
      stripChars md.audio_filename = md.audio_filename) ∧
    (∀ sect, findSectionBody metadataHeader content = some sect →
      (∀ i, findSub titleLabel sect = some i →
        md.title = stripChars ((sect.drop (i + titleLabel.length)).takeWhile
          (fun ch => ch ≠ '\n'))) ∧
      (findSub titleLabel sect = none → md.title = []) ∧
      (∀ i, findSub artistLabel sect = some i →
        md.artist = stripChars ((sect.drop (i + artistLabel.length)).takeWhile
          (fun ch => ch ≠ '\n'))) ∧
      (findSub artistLabel sect = none → md.artist = []) ∧
      (∀ i, findSub versionLabel sect = some i →
        md.version = stripChars ((sect.drop (i + versionLabel.length)).takeWhile
          (fun ch => ch ≠ '\n'))) ∧
      (findSub versionLabel sect = none → md.version = []) ∧
      (∀ i, findSub creatorLabel sect = some i →
        md.creator = stripChars ((sect.drop (i + creatorLabel.length)).takeWhile
          (fun ch => ch ≠ '\n'))) ∧
      (findSub creatorLabel sect = none → md.creator = [])) ∧
    (∀ gsect, findSectionBody generalHeader content = some gsect →
      (∀ i, findSub audioLabel gsect = some i →
        md.audio_filename = stripChars ((gsect.drop (i + audioLabel.length)).takeWhile
          (fun ch => ch ≠ '\n'))) ∧
      (findSub audioLabel gsect = none → md.audio_filename = [])) ∧
    (findSectionBody generalHeader content = none → md.audio_filename = []) ∧
    (parse_osu_file none freedomDiveText).2 = some fdMeta := by
  obtain ⟨mt, hmt, hmd⟩ := parse_osu_file_some pst pst2 content md h
  subst hmd
  refine ⟨⟨stripChars_fieldVal titleLabel mt, stripChars_fieldVal artistLabel mt,
    stripChars_fieldVal versionLabel mt, stripChars_fieldVal creatorLabel mt,
    stripChars_audioFromGeneral content⟩, ?_, ?_, ?_, by decide⟩
  · intro sect hsect
    have hseq : sect = mt := Option.some.inj (hsect.symm.trans hmt)
    subst hseq
    refine ⟨?_, ?_, ?_, ?_, ?_, ?_, ?_, ?_⟩
    · intro i hi
      exact fieldVal_of_findSub_some titleLabel sect i hi
    · intro hn
      exact fieldVal_of_findSub_none titleLabel sect hn
    · intro i hi
      exact fieldVal_of_findSub_some artistLabel sect i hi
    · intro hn
      exact fieldVal_of_findSub_none artistLabel sect hn
    · intro i hi
      exact fieldVal_of_findSub_some versionLabel sect i hi
    · intro hn
      exact fieldVal_of_findSub_none versionLabel sect hn
    · intro i hi
      exact fieldVal_of_findSub_some creatorLabel sect i hi
    · intro hn
      exact fieldVal_of_findSub_none creatorLabel sect hn
  · intro gsect hg
    have ha : audioFromGeneral content = fieldVal audioLabel gsect :=
      audioFromGeneral_of_some content gsect hg
    constructor
    · intro i hi
      show audioFromGeneral content = _
      rw [ha]
      exact fieldVal_of_findSub_some audioLabel gsect i hi
    · intro hn
      show audioFromGeneral content = _
      rw [ha]
      exact fieldVal_of_findSub_none audioLabel gsect hn
  · intro hg
    show audioFromGeneral content = []
    exact audioFromGeneral_of_none content hg

/-- Witness for C3 (amended), at the Freedom Dive chart text (which has
no general section, so its audioFilename is empty). -/
theorem C3_amended_witness :
    (stripChars fdMeta.title = fdMeta.title ∧ stripChars fdMeta.artist = fdMeta.artist ∧
      stripChars fdMeta.version = fdMeta.version ∧ stripChars fdMeta.creator = fdMeta.creator ∧
      stripChars fdMeta.audio_filename = fdMeta.audio_filename) ∧
    fdMeta.audio_filename = [] :=
  ⟨(C3_amended none (some fdMeta) freedomDiveText fdMeta (by decide)).1,
   (C3_amended none (some fdMeta) freedomDiveText fdMeta (by decide)).2.2.2.1 (by decide)⟩

/-! ## Claim C4 -/

/-- C4: on a chart text lacking any metadata section, the extraction
returns the empty record (a parse failure), `process_osu_file` reports
failure with the parse-failed message — without raising, touching the
outcome lists, or calling the add API — and the batch loop continues
with the remaining files exactly as if the failing file were absent. -/
theorem C4_parse_error_skips (pst : Option ChartMetadata) (env : SpotifyEnv) (st : RunState)
    (content fp playlist_id : List Char) (cd : Bool) (n : Nat)
    (rest : List (List Char × List Char))
    (h : findSub metadataHeader content = none) :
    (parse_osu_file pst content).2 = none ∧
    process_osu_file pst env st content fp playlist_id cd =
      ⟨pst, st, false, msgParseFailed, false⟩ ∧
    processFiles env playlist_id cd ((fp, content) :: rest) pst st n =
      processFiles env playlist_id cd rest pst st n := by
  have hsec : findSectionBody metadataHeader content = none := by
    unfold findSectionBody
    rw [h]
  have hparse : parse_osu_file pst content = (pst, none) := by
    unfold parse_osu_file
    rw [hsec]
  have hproc : process_osu_file pst env st content fp playlist_id cd =
      ⟨pst, st, false, msgParseFailed, false⟩ := by
    have h2 := process_parse_none pst env st content fp playlist_id cd (by rw [hparse])
    rw [h2, hparse]
  refine ⟨by rw [hparse], hproc, ?_⟩
  rw [processFiles_cons]
  show processFiles env playlist_id cd rest
      (process_osu_file pst env st content fp playlist_id cd).pst
      (process_osu_file pst env st content fp playlist_id cd).state
      (if (process_osu_file pst env st content fp playlist_id cd).success then n + 1 else n) =
    processFiles env playlist_id cd rest pst st n
  rw [hproc, if_neg Bool.false_ne_true]

/-- Witness for C4, at a concrete text with no sections, followed by one
remaining file in the batch. -/
theorem C4_witness :
    (parse_osu_file none noSectionText).2 = none ∧
    process_osu_file none envOk emptyRun noSectionText (String.data "b.osu")
        (String.data "PL1") true = ⟨none, emptyRun, false, msgParseFailed, false⟩ ∧
    processFiles envOk (String.data "PL1") true
        [(String.data "b.osu", noSectionText), (String.data "c.osu", freedomDiveText)]
        none emptyRun 0 =
      processFiles envOk (String.data "PL1") true
        [(String.data "c.osu", freedomDiveText)] none emptyRun 0 :=
  C4_parse_error_skips none envOk emptyRun noSectionText (String.data "b.osu")
    (String.data "PL1") true 0 [(String.data "c.osu", freedomDiveText)] (by decide)

/-! ## Claim C5 -/

theorem dup_msg_has_phrase : (findSub dupPhrase msgAlreadyExists).isSome = true := by
  decide

/-- C5: when the duplicate check is enabled and the matched track is
already a member of the target playlist, the file's outcome is the
duplicate one — the entry goes to the duplicate list, the message is the
already-exists message, and the add API is never called. -/
theorem C5_duplicate_no_add (pst : Option ChartMetadata) (env : SpotifyEnv) (st : RunState)
    (content fp playlist_id : List Char) (md : ChartMetadata) (track : Track)
    (hmd : (parse_osu_file pst content).2 = some md)
    (hs : search_track env md.title md.artist = some track)
    (hne : resolvePid env playlist_id ≠ [])
    (hmem : is_track_in_playlist
      (env.playlistTracksApi (resolvePid env playlist_id)) track.id = true) :
    process_osu_file pst env st content fp playlist_id true =
      ⟨(parse_osu_file pst content).1,
        { st with duplicate_tracks :=
            st.duplicate_tracks ++ [⟨track.name, track.artistName, track.spotifyUrl, fp⟩] },
        false, msgAlreadyExists, false⟩ := by
  rw [process_add_reached pst env st content fp playlist_id true md track hmd hs hne,
    addOutcome_def]
  have hadd : add_track_to_playlist env (resolvePid env playlist_id) track.id true =
      (false, msgAlreadyExists, false) := by
    unfold add_track_to_playlist
    rw [hmem]
    rfl
  rw [hadd]
  unfold classifyAdd
  rw [if_neg Bool.false_ne_true, if_pos dup_msg_has_phrase]

/-- Witness for C5: the Freedom Dive track is already in the playlist;
the file lands in the duplicate list and the add API flag stays false. -/
theorem C5_witness :
    process_osu_file none envDup emptyRun freedomDiveText
        (String.data "song.osu") (String.data "PL1") true =
      ⟨(parse_osu_file none freedomDiveText).1,
        { emptyRun with duplicate_tracks :=
            emptyRun.duplicate_tracks ++
              [⟨trackA.name, trackA.artistName, trackA.spotifyUrl, String.data "song.osu"⟩] },
        false, msgAlreadyExists, false⟩ :=
  C5_duplicate_no_add none envDup emptyRun freedomDiveText (String.data "song.osu")
    (String.data "PL1") fdMeta trackA (by decide) (by decide) (by decide) (by decide)

/-! ## Claim C6 -/

/-- C6: with the caller's playlist listing available, the lookup returns
the id of the first playlist whose name equals the requested name
exactly (case-sensitively, by plain string equality), and when no
playlist matches it returns the result of creating a playlist with that
name and the fixed default description. -/
theorem C6_ensure_playlist (env : SpotifyEnv) (items : List PlaylistInfo) (name : List Char)
    (h : env.userPlaylistsApi = Except.ok items) :
    (∀ pid, findFirstMatch name items = some pid →
      get_or_create_osu_playlist env name = some pid) ∧
    (findFirstMatch name items = none →
      get_or_create_osu_playlist env name = env.createApi name osuDescription) ∧
    (∀ pid, findFirstMatch name items = some pid ↔
      ∃ pre p post, items = pre ++ p :: post ∧ p.name = name ∧ p.id = pid ∧
        ∀ q ∈ pre, q.name ≠ name) ∧
    (findFirstMatch name items = none ↔ ∀ p ∈ items, p.name ≠ name) := by
  refine ⟨?_, ?_, fun pid => findFirstMatch_some_iff name pid items,
    findFirstMatch_none_iff name items⟩
  · intro pid hfind
    unfold get_or_create_osu_playlist
    rw [h]
    simp only [hfind]
  · intro hnone
    unfold get_or_create_osu_playlist
    rw [h]
    simp only [hnone]

/-- Witness for C6: an existing playlist with the exact name is found,
while a name differing only in case leads to creation. -/
theorem C6_witness :
    get_or_create_osu_playlist envOk (String.data "My List") = some (String.data "PL0") ∧
    get_or_create_osu_playlist envOk (String.data "my list") =
      envOk.createApi (String.data "my list") osuDescription :=
  ⟨(C6_ensure_playlist envOk [⟨String.data "My List", String.data "PL0"⟩]
      (String.data "My List") rfl).1 (String.data "PL0") (by decide),
   (C6_ensure_playlist envOk [⟨String.data "My List", String.data "PL0"⟩]
      (String.data "my list") rfl).2.1 (by decide)⟩

/-! ## Claim C7 -/

/-- C7: a missing directory yields zero and untouched state; a directory
with no matching chart files yields zero and untouched state (both
reported, not fatal: the function returns normally); otherwise the run is
the per-file loop over the enumerated files and the returned count is
exactly the growth of the added list (the number of Added outcomes); and
the enumeration is characterized as direct-children chart files when
`recursive` is false and all chart files of the tree when it is true. -/
theorem C7_batch (pst : Option ChartMetadata) (env : SpotifyEnv) (st : RunState)
    (playlist_name : List Char) (cd recursive : Bool) (fs : Fs) :
    (process_directory pst env st none playlist_name cd recursive = (pst, st, 0)) ∧
    ((if recursive then osuFilesRec fs else osuFilesDirect fs) = [] →
      process_directory pst env st (some fs) playlist_name cd recursive = (pst, st, 0)) ∧
    ((if recursive then osuFilesRec fs else osuFilesDirect fs) ≠ [] →
      process_directory pst env st (some fs) playlist_name cd recursive =
        processFiles env
          (if playlist_name = [] then []
            else (get_or_create_osu_playlist env playlist_name).getD [])
          cd (if recursive then osuFilesRec fs else osuFilesDirect fs) pst st 0 ∧
      (process_directory pst env st (some fs) playlist_name cd recursive).2.2 +
          st.added_tracks.length =
        (process_directory pst env st (some fs) playlist_name
          cd recursive).2.1.added_tracks.length) ∧
    (∀ nm c, (nm, c) ∈ osuFilesDirect fs ↔ DirectOsuFile nm c fs) ∧
    (∀ nm c, (nm, c) ∈ osuFilesRec fs ↔ RecOsuFile nm c fs) := by
  refine ⟨rfl, ?_, ?_, fun nm c => mem_osuFilesDirect nm c fs,
    fun nm c => mem_osuFilesRec nm c fs⟩
  · intro hempty
    show (if (if recursive then osuFilesRec fs else osuFilesDirect fs) = []
        then ((pst, st, 0) : Option ChartMetadata × RunState × Nat)
        else processFiles env
          (if playlist_name = [] then []
            else (get_or_create_osu_playlist env playlist_name).getD [])
          cd (if recursive then osuFilesRec fs else osuFilesDirect fs) pst st 0) =
      (pst, st, 0)
    rw [if_pos hempty]
  · intro hne
    have hd : process_directory pst env st (some fs) playlist_name cd recursive =
        processFiles env
          (if playlist_name = [] then []
            else (get_or_create_osu_playlist env playlist_name).getD [])
          cd (if recursive then osuFilesRec fs else osuFilesDirect fs) pst st 0 := by
      show (if (if recursive then osuFilesRec fs else osuFilesDirect fs) = []
          then ((pst, st, 0) : Option ChartMetadata × RunState × Nat)
          else processFiles env
            (if playlist_name = [] then []
              else (get_or_create_osu_playlist env playlist_name).getD [])
            cd (if recursive then osuFilesRec fs else osuFilesDirect fs) pst st 0) = _
      rw [if_neg hne]
    refine ⟨hd, ?_⟩
    rw [hd]
    have hc := processFiles_count env
      (if playlist_name = [] then []
        else (get_or_create_osu_playlist env playlist_name).getD [])
      cd (if recursive then osuFilesRec fs else osuFilesDirect fs) pst st 0
    omega

/-- A sample directory: one chart file at top level, a subdirectory with
a chart file, and a non-chart file. -/
def fsSample : Fs :=
  Fs.file (String.data "a.osu") freedomDiveText
    (Fs.dir (String.data "sub")
      (Fs.file (String.data "b.osu") noSectionText Fs.nil)
      (Fs.file (String.data "notes.txt") (String.data "x") Fs.nil))

/-- Witness for C7: a missing directory returns zero untouched, and a
non-recursive run over the sample directory is the loop over its direct
chart files only. -/
theorem C7_witness :
    process_directory none envOk emptyRun none (String.data "PL") true true =
      (none, emptyRun, 0) ∧
    process_directory none envOk emptyRun (some fsSample) [] true false =
      processFiles envOk [] true (osuFilesDirect fsSample) none emptyRun 0 :=
  ⟨(C7_batch none envOk emptyRun (String.data "PL") true true Fs.nil).1,
   ((C7_batch none envOk emptyRun [] true false fsSample).2.2.1 (by decide)).1⟩

/-! ## Claim C8 -/

/-- C8: the dictionary returned by a parse call never depends on the
parser object's stored state — in particular, on a text with no
recognizable metadata section the call returns the empty record and
leaves the stored attribute untouched, never a record with stale fields
from a prior parse. -/
theorem C8_no_state_leak (pst pst2 : Option ChartMetadata) (content : List Char) :
    (parse_osu_file pst content).2 = (parse_osu_file pst2 content).2 ∧
    (findSectionBody metadataHeader content = none →
      parse_osu_file pst content = (pst, none)) := by
  constructor
  · unfold parse_osu_file
    rcases findSectionBody metadataHeader content with _ | mt <;> rfl
  · intro h
    unfold parse_osu_file
    rw [h]

/-- Witness for C8: a stale populated parser state and a sectionless
text still yield the empty record. -/
theorem C8_witness :
    (parse_osu_file (some fdMeta) noSectionText).2 =
      (parse_osu_file none noSectionText).2 ∧
    parse_osu_file (some fdMeta) noSectionText = (some fdMeta, none) :=
  ⟨(C8_no_state_leak (some fdMeta) none noSectionText).1,
   (C8_no_state_leak (some fdMeta) none noSectionText).2 (by decide)⟩

/-! ## Claim C9 -/

/-- C9: when the membership listing raises a catalog error, the listing
collapses to the empty sequence, the membership check returns false, the
orchestrator therefore proceeds to call the add API even with the
duplicate check enabled, and — when the add succeeds — the file is
recorded as Added (a re-add of a possibly present track), not as
Duplicate. -/
theorem C9_fetch_error_readds (pst : Option ChartMetadata) (env : SpotifyEnv) (st : RunState)
    (content fp playlist_id e : List Char) (md : ChartMetadata) (track : Track)
    (hmd : (parse_osu_file pst content).2 = some md)
    (hs : search_track env md.title md.artist = some track)
    (hne : resolvePid env playlist_id ≠ [])
    (hfetch : env.playlistTracksApi (resolvePid env playlist_id) = PageFetch.err e) :
    get_playlist_tracks (env.playlistTracksApi (resolvePid env playlist_id)) = [] ∧
    is_track_in_playlist (env.playlistTracksApi (resolvePid env playlist_id)) track.id
      = false ∧
    (process_osu_file pst env st content fp playlist_id true).addCalled = true ∧
    (env.addApi (resolvePid env playlist_id) track.id = Except.ok () →
      process_osu_file pst env st content fp playlist_id true =
        ⟨(parse_osu_file pst content).1,
          { st with added_tracks :=
              st.added_tracks ++ [⟨track.name, track.artistName, track.spotifyUrl, fp⟩] },
          true, msgAddOk, true⟩) := by
  have hempty : get_playlist_tracks (env.playlistTracksApi (resolvePid env playlist_id))
      = [] := by
    rw [hfetch]
    rfl
  have hnotin : is_track_in_playlist
      (env.playlistTracksApi (resolvePid env playlist_id)) track.id = false := by
    unfold is_track_in_playlist
    rw [hempty]
    rfl
  have hroute := process_add_reached pst env st content fp playlist_id true md track hmd hs hne
  refine ⟨hempty, hnotin, ?_, ?_⟩
  · rw [hroute, addOutcome_def]
    show (add_track_to_playlist env (resolvePid env playlist_id) track.id true).2.2 = true
    unfold add_track_to_playlist
    rw [hnotin]
    show (match env.addApi (resolvePid env playlist_id) track.id with
      | Except.ok _ => (true, msgAddOk, true)
      | Except.error e2 => (false, msgAddErrPrefix ++ e2, true)).2.2 = true
    rcases env.addApi (resolvePid env playlist_id) track.id with e2 | v <;> rfl
  · intro haddok
    have hadd : add_track_to_playlist env (resolvePid env playlist_id) track.id true =
        (true, msgAddOk, true) := by
      unfold add_track_to_playlist
      rw [hnotin, haddok]
      rfl
    rw [hroute, addOutcome_def, hadd]
    unfold classifyAdd
    rw [if_pos rfl]

/-- Witness for C9: the listing raises, the membership check is false,
and the add API is reached. -/
theorem C9_witness :
    is_track_in_playlist
        (envFetchErr.playlistTracksApi (resolvePid envFetchErr (String.data "PL1")))
        trackA.id = false ∧
    (process_osu_file none envFetchErr emptyRun freedomDiveText
      (String.data "song.osu") (String.data "PL1") true).addCalled = true :=
  ⟨(C9_fetch_error_readds none envFetchErr emptyRun freedomDiveText (String.data "song.osu")
      (String.data "PL1") (String.data "network down") fdMeta trackA
      (by decide) (by decide) (by decide) (by decide)).2.1,
   (C9_fetch_error_readds none envFetchErr emptyRun freedomDiveText (String.data "song.osu")
      (String.data "PL1") (String.data "network down") fdMeta trackA
      (by decide) (by decide) (by decide) (by decide)).2.2.1⟩

/-! ## Claim C10 -/

/-- C10: the search step returns none both on an empty result set and on
a raised catalog error, and the orchestrator's resulting outcome is the
identical no-match failure in both cases — the two causes are
indistinguishable to the caller. -/
theorem C10_search_failure_is_no_match (pst : Option ChartMetadata) (env : SpotifyEnv)
    (st : RunState) (content fp playlist_id e : List Char) (cd : Bool) (md : ChartMetadata)
    (hmd : (parse_osu_file pst content).2 = some md)
    (hs : env.searchApi md.title md.artist = SearchOutcome.ok [] ∨
      env.searchApi md.title md.artist = SearchOutcome.err e) :
    search_track env md.title md.artist = none ∧
    process_osu_file pst env st content fp playlist_id cd =
      ⟨(parse_osu_file pst content).1, st, false, msgNotFound md.title md.artist, false⟩ := by
  have hnone : search_track env md.title md.artist = none := by
    unfold search_track
    rcases hs with h | h
    · rw [h]
      rfl
    · rw [h]
  exact ⟨hnone, process_search_none pst env st content fp playlist_id cd md hmd hnone⟩

/-- Witness for C10: a raised search produces exactly the same outcome
as an empty result set. -/
theorem C10_witness :
    search_track envSearchErr fdMeta.title fdMeta.artist = none ∧
    process_osu_file none envSearchErr emptyRun freedomDiveText
        (String.data "d.osu") (String.data "PL1") true =
      ⟨(parse_osu_file none freedomDiveText).1, emptyRun, false,
        msgNotFound fdMeta.title fdMeta.artist, false⟩ :=
  C10_search_failure_is_no_match none envSearchErr emptyRun freedomDiveText
    (String.data "d.osu") (String.data "PL1") (String.data "boom") true fdMeta
    (by decide) (Or.inr rfl)
